import Mathlib

/-!
Verification of the traversome CLI shell (`traversome/__main__.py`) and of the
spec-described estimator behaviour it drives.

The repository ships only the CLI module under `src/`; the estimator core
(`traversome.traversome.Traversome`) is imported by the CLI but is not part of
the source tree.  Definitions below therefore fall in two groups:
* shallow embeddings of the code of `__main__.py` (input-file validation,
  output-directory setup, the `--graph-selection` parse, the assert guards,
  and the `try`/`except` handler of the `thorough` command);
* definitions whose doc comment starts with `Modelled from the spec:` for the
  estimator-side behaviour that the spec describes but whose code is absent.
-/

namespace Traversome

/-- The `Previous` enum of `__main__.py` (previous-run policy of `--previous`). -/
inductive Previous
  | terminate
  | resume
  | overwrite
deriving DecidableEq, Repr

/-- The `VarGen` enum of `__main__.py` (`-G`): H (Heuristic) / U (User-provided). -/
inductive VarGen
  | Heuristic
  | Provided
deriving DecidableEq, Repr

/-- Python exceptions that the control flow of `thorough` distinguishes.
`systemExit` carries the optional exit code of `sys.exit`; the other
constructors carry the exception's argument. -/
inductive PyExc
  | systemExit (code : Option Int)
  | assertionError (msg : String)
  | typeError (msg : String)
  | nameError (nm : String)
  | valueError (arg : String)
  | otherError (info : String)
deriving DecidableEq, Repr

/-- Presence and existence of the `-f` (reads) and `-a` (alignment) arguments as
seen by the body of `thorough`: both options default to `None` and neither is
declared with `exists=True`, so existence is checked in the body. -/
structure InputFiles where
  readsProvided : Bool
  readsExists : Bool
  alignProvided : Bool
  alignExists : Bool
deriving DecidableEq, Repr

/-- Result of the input-file checks at the top of `thorough`
(`__main__.py` lines 283-292), which run before `initialize` and before any
analysis: `earlyExit` is a `sys.stderr.write` of the message followed by
`sys.exit()`; `fileNotFoundRaised` is a raised `FileNotFoundError` naming the
offending argument. -/
inductive InputCheck
  | earlyExit (stderrMsg : String)
  | fileNotFoundRaised (arg : String)
  | proceed
deriving DecidableEq, Repr

/-- The `if`/`elif` chain of `__main__.py` lines 283-292, in source order:
both provided, neither provided, reads file missing, alignment file missing,
otherwise fall through to the analysis. -/
def checkInputFiles (f : InputFiles) : InputCheck :=
  if f.readsProvided && f.alignProvided then
    .earlyExit "Flags `-f` and `-a` are mutually exclusive!"
  else if !f.readsProvided && !f.alignProvided then
    .earlyExit "Either the sequence file (via `-f`) or the graph alignment (via `-a`) should be provided!"
  else if f.readsProvided && !f.readsExists then
    .fileNotFoundRaised "reads_file"
  else if f.alignProvided && !f.alignExists then
    .fileNotFoundRaised "alignment_file"
  else
    .proceed

/-- Outcome of the guarded block of `thorough` (lines 300-347) as seen by its
`except` clauses: either the block ran to completion or some exception was
raised inside it. -/
inductive RunOutcome
  | success
  | raised (e : PyExc)
deriving DecidableEq, Repr

/-- How the `thorough` command ends after its handler (lines 348-352):
`completed` means the handler fell through silently and the total-elapsed-time
line was logged; `completedLogged` means the exception was logged by
`logger.exception("")` and the elapsed-time line was still reached;
`propagated` would mean an exception escaped the command (the handler never
produces it). -/
inductive CommandEnd
  | completed
  | completedLogged (e : PyExc)
  | propagated (e : PyExc)
deriving DecidableEq, Repr

/-- The `try`/`except` of `thorough` (lines 300-352): `except SystemExit: pass`
discards a `SystemExit` silently; the bare `except:` logs anything else; in
every case control reaches the `logger.info("Total cost ...")` line. -/
def handleRunPhase : RunOutcome → CommandEnd
  | .success => .completed
  | .raised (.systemExit _) => .completed
  | .raised e => .completedLogged e

/-- Whether the final `logger.info("Total cost %.4f" ...)` line of `thorough`
is reached for a given command ending. -/
def elapsedTimeLogged : CommandEnd → Bool
  | .propagated _ => false
  | _ => true

/-- Modelled from the spec: the error taxonomy of the estimator core
(spec section 7), whose code is not under `src/`. -/
inductive TypedError
  | invalidSelectionSpec
  | insufficientPaths
  | incompatibleCheckpoint
  | numericInstability
deriving DecidableEq, Repr

/-- Modelled from the spec: how a typed estimator failure surfaces to the
Python caller — as an exception of the named class, never as a `SystemExit`. -/
def typedErrorExc : TypedError → PyExc
  | .invalidSelectionSpec => .otherError "InvalidSelectionSpec"
  | .insufficientPaths => .otherError "InsufficientPathsError"
  | .incompatibleCheckpoint => .otherError "IncompatibleCheckpointError"
  | .numericInstability => .otherError "NumericInstabilityError"

/-- Modelled from the spec: the estimator core (`traversome.traversome`,
absent from `src/`) "signals success or a typed failure to its caller; it
never terminates the host process directly" (spec section 6), so a run of it
ends in success or in one of the typed failures of the taxonomy. -/
inductive EstimatorOutcome
  | success
  | typedFailure (e : TypedError)
deriving DecidableEq, Repr

/-- Modelled from the spec: the run outcome the `thorough` handler observes
when the guarded block's exception, if any, came from the estimator. -/
def estimatorSignal : EstimatorOutcome → RunOutcome
  | .success => .success
  | .typedFailure e => .raised (typedErrorExc e)

/-- C1: for every estimator outcome, that outcome is success or a typed
failure, it is never a direct process exit (`SystemExit`), and the `thorough`
handler never lets it escape the command (so the host process is never
terminated from the estimator's control flow). -/
theorem estimator_exit_behavior_contained :
    ∀ (o : EstimatorOutcome),
      (o = EstimatorOutcome.success ∨ ∃ e, o = EstimatorOutcome.typedFailure e)
      ∧ (∀ c, estimatorSignal o ≠ RunOutcome.raised (PyExc.systemExit c))
      ∧ (∀ e2, handleRunPhase (estimatorSignal o) ≠ CommandEnd.propagated e2) := by
  intro o
  refine ⟨?_, ?_, ?_⟩
  · cases o with
    | success => exact Or.inl rfl
    | typedFailure e => exact Or.inr ⟨e, rfl⟩
  · intro c
    cases o with
    | success => simp [estimatorSignal]
    | typedFailure e => cases e <;> simp [estimatorSignal, typedErrorExc]
  · intro e2
    cases o with
    | success => simp [estimatorSignal, handleRunPhase]
    | typedFailure e => cases e <;> simp [estimatorSignal, typedErrorExc, handleRunPhase]

/-- C2: the run proceeds to analysis iff exactly one of the reads file and the
alignment file is provided and the provided one exists; both provided or
neither provided stop the run before any analysis with a message, and a
provided-but-missing file raises a `FileNotFoundError` naming it. -/
theorem thorough_reads_alignment_exclusivity :
    ∀ (f : InputFiles),
      (checkInputFiles f = InputCheck.proceed ↔
        ((f.readsProvided = true ∧ f.alignProvided = false ∧ f.readsExists = true)
          ∨ (f.readsProvided = false ∧ f.alignProvided = true ∧ f.alignExists = true)))
      ∧ (f.readsProvided = true → f.alignProvided = true →
          checkInputFiles f = InputCheck.earlyExit "Flags `-f` and `-a` are mutually exclusive!")
      ∧ (f.readsProvided = false → f.alignProvided = false →
          checkInputFiles f
            = InputCheck.earlyExit "Either the sequence file (via `-f`) or the graph alignment (via `-a`) should be provided!")
      ∧ (f.readsProvided = true → f.alignProvided = false → f.readsExists = false →
          checkInputFiles f = InputCheck.fileNotFoundRaised "reads_file")
      ∧ (f.readsProvided = false → f.alignProvided = true → f.alignExists = false →
          checkInputFiles f = InputCheck.fileNotFoundRaised "alignment_file") := by
  intro f
  obtain ⟨rp, re, ap, ae⟩ := f
  cases rp <;> cases re <;> cases ap <;> cases ae <;> decide

/-- C2 witness: with both files provided the command stops with the
mutual-exclusion message. -/
theorem thorough_reads_alignment_exclusivity_witness :
    checkInputFiles ⟨true, true, true, true⟩
      = InputCheck.earlyExit "Flags `-f` and `-a` are mutually exclusive!" :=
  (thorough_reads_alignment_exclusivity ⟨true, true, true, true⟩).2.1 rfl rfl

/-- C8: every exception raised in `thorough`'s guarded run phase is contained:
none propagates out of the command, a `SystemExit` (any exit code) is silently
discarded, any other exception ends in the logged-then-completed state, and in
all cases the total-elapsed-time line is logged. -/
theorem run_phase_exception_containment :
    ∀ (e : PyExc),
      (∀ e2, handleRunPhase (RunOutcome.raised e) ≠ CommandEnd.propagated e2)
      ∧ (∀ c, e = PyExc.systemExit c → handleRunPhase (RunOutcome.raised e) = CommandEnd.completed)
      ∧ ((∀ c, e ≠ PyExc.systemExit c) →
          handleRunPhase (RunOutcome.raised e) = CommandEnd.completedLogged e)
      ∧ elapsedTimeLogged (handleRunPhase (RunOutcome.raised e)) = true := by
  intro e
  refine ⟨?_, ?_, ?_, ?_⟩
  · intro e2
    cases e <;> simp [handleRunPhase]
  · intro c hc
    subst hc
    rfl
  · intro h
    cases e with
    | systemExit c => exact absurd rfl (h c)
    | assertionError m => rfl
    | typeError m => rfl
    | nameError m => rfl
    | valueError m => rfl
    | otherError m => rfl
  · cases e <;> rfl

/-- C8 witness: a `SystemExit` raised in the run phase is discarded and the
command completes. -/
theorem run_phase_exception_containment_witness :
    handleRunPhase (RunOutcome.raised (PyExc.systemExit none)) = CommandEnd.completed :=
  (run_phase_exception_containment (PyExc.systemExit none)).2.1 none rfl

/-- Abstract contents of the output directory before the run: whether the
directory exists, its file names, and its subdirectory names. -/
structure OutDir where
  dirExists : Bool
  files : List String
  subdirs : List String
deriving DecidableEq, Repr

/-- Result of output-directory setup: `os.makedirs` with `exist_ok=False`
raises `FileExistsError` on an existing directory, otherwise setup yields the
directory state the run starts from. -/
inductive InitResult
  | fileExistsError
  | initialized (d : OutDir)
deriving DecidableEq, Repr

/-- Whether a name matches the glob pattern `*.*` used by
`output_dir.glob("*.*")`: a name matches iff it contains a dot. -/
def matchesStarDotStar (nm : String) : Bool := nm.contains '.'

/-- The output-directory setup of `__main__.py` lines 373-383:
`os.makedirs(..., exist_ok = previous in ("overwrite", "resume"))`, then, for
the overwrite policy, removal of the `paths` and `theano.cache` result
subdirectories and of every file matching `*.*`. -/
def initOutputDir (previous : Previous) (d : OutDir) : InitResult :=
  if ¬ (previous = Previous.overwrite ∨ previous = Previous.resume) ∧ d.dirExists = true then
    .fileExistsError
  else if previous = Previous.overwrite then
    .initialized
      { dirExists := true,
        files := d.files.filter (fun nm => !(matchesStarDotStar nm)),
        subdirs := d.subdirs.filter (fun nm => !(nm == "paths" || nm == "theano.cache")) }
  else
    .initialized { d with dirExists := true }

/-- The `resume` argument `thorough` passes to the estimator constructor
(`resume = prev_run == "resume"`, `__main__.py` line 340). -/
def resumeFlag : Previous → Bool
  | .resume => true
  | _ => false

/-- Modelled from the spec: how the estimator core (absent from `src/`) starts
given its `resume` argument — resuming "continue[s] on latest checkpoint if
previous result exists" (`--previous` help text and spec section 4.4). -/
inductive StartMode
  | fresh
  | fromLatestCheckpoint
deriving DecidableEq, Repr

/-- Modelled from the spec: the estimator continues from the latest checkpoint
exactly when constructed with `resume=True`. -/
def estimatorStartMode (resume : Bool) : StartMode :=
  if resume then .fromLatestCheckpoint else .fresh

/-- C4: with policy terminate, setup fails with `FileExistsError` when the
output location already exists; with policy overwrite, the `paths` and
`theano.cache` result directories and every dotted result file are removed
before the run; with policy resume, the existing directory is kept as is and
the estimator is started from the latest checkpoint. -/
theorem previous_run_policy_behavior :
    ∀ (d : OutDir),
      (d.dirExists = true → initOutputDir Previous.terminate d = InitResult.fileExistsError)
      ∧ (∃ d2, initOutputDir Previous.overwrite d = InitResult.initialized d2
          ∧ (∀ nm, nm ∈ d2.files → matchesStarDotStar nm = false)
          ∧ "paths" ∉ d2.subdirs ∧ "theano.cache" ∉ d2.subdirs)
      ∧ initOutputDir Previous.resume d = InitResult.initialized { d with dirExists := true }
      ∧ estimatorStartMode (resumeFlag Previous.resume) = StartMode.fromLatestCheckpoint := by
  intro d
  refine ⟨?_, ?_, ?_, rfl⟩
  · intro h
    rw [initOutputDir, if_pos ⟨by simp, h⟩]
  · refine ⟨{ dirExists := true,
              files := d.files.filter (fun nm => !(matchesStarDotStar nm)),
              subdirs := d.subdirs.filter (fun nm => !(nm == "paths" || nm == "theano.cache")) },
            ?_, ?_, ?_, ?_⟩
    · rw [initOutputDir, if_neg (by simp), if_pos rfl]
    · intro nm hnm
      have := List.of_mem_filter hnm
      simpa using this
    · intro h
      have := List.of_mem_filter h
      simp at this
    · intro h
      have := List.of_mem_filter h
      simp at this
  · rw [initOutputDir, if_neg (by simp), if_neg (by simp)]

/-- C4 witness: with policy terminate on an existing output directory, setup
fails with `FileExistsError`. -/
theorem previous_run_policy_behavior_witness :
    initOutputDir Previous.terminate ⟨true, ["traversome.log.txt"], ["paths"]⟩
      = InitResult.fileExistsError :=
  (previous_run_policy_behavior ⟨true, ["traversome.log.txt"], ["paths"]⟩).1 rfl

/-- Python `str.isdigit` on the ASCII strings the CLI receives: non-empty and
all characters decimal digits. -/
def pyIsDigit (s : String) : Bool := !s.toList.isEmpty && s.toList.all Char.isDigit

/-- The Python membership test `"." in s` on a string's characters. -/
def pyContainsDot (s : String) : Bool := s.toList.contains '.'

/-- Value of a decimal digit string, as computed by Python `int` on an
`isdigit` string. -/
def pyNatOfDigits (cs : List Char) : Nat :=
  cs.foldl (fun a c => a * 10 + (c.toNat - 48)) 0

/-- Python `int(s)` for the digit-only strings that reach it here. -/
def pyInt (s : String) : Nat := pyNatOfDigits s.toList

/-- Split a character list on `'.'` (the behaviour of `s.split(".")` on the
characters of `s`). -/
def splitOnDot : List Char → List (List Char)
  | [] => [[]]
  | c :: rest =>
      if c = '.' then [] :: splitOnDot rest
      else
        match splitOnDot rest with
        | [] => [[c]]
        | g :: gs => (c :: g) :: gs

/-- Python `float(s)` on the decimal-literal fragment `digits.digits` (at
least one digit overall); forms outside this fragment (exponents, signs,
`inf`/`nan`) are not produced by the inputs any theorem below relies on and
are mapped to `none` (a `ValueError`). -/
def pyFloat (s : String) : Option ℚ :=
  match splitOnDot s.toList with
  | [a, b] =>
      if (a.all Char.isDigit && b.all Char.isDigit) && (!a.isEmpty || !b.isEmpty) then
        some ((pyNatOfDigits a : ℚ) + (pyNatOfDigits b : ℚ) / (10 : ℚ) ^ b.length)
      else none
  | _ => none

/-- Result of the Python expression `slice(*eval(s))` for a `--graph-selection`
string that is neither digits-only nor contains a dot.  `eval` is a Python
builtin whose full semantics is outside this embedding, so its outcome is an
input to the parse: `ok` is a successfully built slice, and the error
constructors name the exception class the expression raises (for example,
`eval` on a bare unbound identifier such as `"abc"` raises `NameError`, and
`eval("!")` raises `SyntaxError`). -/
inductive SliceEval
  | ok (args : List Int)
  | synErr
  | typeErr
  | nameErr
  | otherExc
deriving DecidableEq, Repr

/-- The parsed value `thorough` hands to the estimator constructor as
`graph_component_selection`. -/
inductive GCSValue
  | asIndex (n : Nat)
  | asRatioCut (q : ℚ)
  | asSlice (args : List Int)
deriving DecidableEq, Repr

/-- Result of the `--graph-selection` classification: a parsed value handed to
the estimator constructor, or a raised exception. -/
inductive ParseResult
  | ok (g : GCSValue)
  | error (e : PyExc)
deriving DecidableEq, Repr

/-- The `--graph-selection` classification of `__main__.py` lines 311-319:
digits-only becomes `int`, a string containing `.` becomes `float`, anything
else is tried as `slice(*eval(...))` with only `SyntaxError` and `TypeError`
converted into `TypeError(str(value) + " is invalid for --graph-selection!")`;
other evaluation failures propagate unchanged.  No numeric range check is
performed on any branch. -/
def parseGraphComponentSelection (s : String) (ev : SliceEval) : ParseResult :=
  if pyIsDigit s then
    .ok (.asIndex (pyInt s))
  else if pyContainsDot s then
    match pyFloat s with
    | some q => .ok (.asRatioCut q)
    | none => .error (.valueError s)
  else
    match ev with
    | .ok args => .ok (.asSlice args)
    | .synErr => .error (.typeError (s ++ " is invalid for --graph-selection!"))
    | .typeErr => .error (.typeError (s ++ " is invalid for --graph-selection!"))
    | .nameErr => .error (.nameError s)
    | .otherExc => .error (.otherError s)

/-- What `thorough`'s guarded block does between its start and the
construction of the estimator. -/
inductive PrePhase
  | constructed (g : GCSValue)
  | raisedExc (e : PyExc)
deriving DecidableEq, Repr

/-- The pre-construction part of `thorough`'s guarded block
(`__main__.py` lines 308-321), in source order: the `var_gen_scheme != "U"`
assert, the `max_valid_search >= min_valid_search` assert (message `""`),
the `--graph-selection` parse, then the `Traversome(...)` construction. -/
def preConstruction (scheme : VarGen) (minV maxV : Int) (s : String) (ev : SliceEval) :
    PrePhase :=
  if scheme = VarGen.Provided then
    .raisedExc (.assertionError "User-provided is under developing, please use heuristic instead!")
  else if maxV < minV then
    .raisedExc (.assertionError "")
  else
    match parseGraphComponentSelection s ev with
    | .ok g => .constructed g
    | .error e => .raisedExc e

/-- The `--graph-selection` parse raises only `TypeError`, `ValueError`,
`NameError` or the propagated evaluation failure — never an `AssertionError`. -/
lemma parse_gcs_not_assert (s : String) (ev : SliceEval) (m : String) :
    parseGraphComponentSelection s ev ≠ .error (.assertionError m) := by
  unfold parseGraphComponentSelection
  intro h
  split at h
  · exact ParseResult.noConfusion h
  · split at h
    · split at h
      · exact ParseResult.noConfusion h
      · simp at h
    · cases ev <;> simp_all

/-- Python `float("1.5")` is the rational 3/2. -/
lemma pyFloat_one_five : pyFloat "1.5" = some (3 / 2) := by
  have hsplit : splitOnDot "1.5".toList = [['1'], ['5']] := by decide
  have h1 : pyNatOfDigits ['1'] = 1 := by decide
  have h5 : pyNatOfDigits ['5'] = 5 := by decide
  unfold pyFloat
  simp only [hsplit]
  rw [if_pos (by decide), h1, h5]
  norm_num

/-- The selection string `"1.5"` — a ratio cutoff outside (0,1] — parses to
the float 3/2 on every evaluation oracle, with no range check. -/
lemma parse_one_five (ev : SliceEval) :
    parseGraphComponentSelection "1.5" ev = .ok (.asRatioCut (3 / 2)) := by
  have h1 : pyIsDigit "1.5" = false := by decide
  have h2 : pyContainsDot "1.5" = true := by decide
  unfold parseGraphComponentSelection
  rw [if_neg (by simp [h1]), if_pos h2, pyFloat_one_five]

/-- C3 counterexample: for the malformed selection `"!"` (whose evaluation
raises `SyntaxError`), the raised failure is the plain
`TypeError("! is invalid for --graph-selection!")`, not `InvalidSelectionSpec`;
the command's catch-all handler then logs it and the invocation completes
rather than failing; and the out-of-range ratio `"1.5"` is accepted at this
boundary with no range check. -/
theorem graph_selection_typeerror_not_selection_spec :
    parseGraphComponentSelection "!" SliceEval.synErr
      = ParseResult.error (PyExc.typeError ("!" ++ " is invalid for --graph-selection!"))
    ∧ PyExc.typeError ("!" ++ " is invalid for --graph-selection!")
        ≠ typedErrorExc TypedError.invalidSelectionSpec
    ∧ handleRunPhase
        (RunOutcome.raised (PyExc.typeError ("!" ++ " is invalid for --graph-selection!")))
      = CommandEnd.completedLogged
          (PyExc.typeError ("!" ++ " is invalid for --graph-selection!"))
    ∧ parseGraphComponentSelection "1.5" SliceEval.synErr
      = ParseResult.ok (GCSValue.asRatioCut (3 / 2)) := by
  refine ⟨by decide, by decide, rfl, parse_one_five SliceEval.synErr⟩

/-- C3 amended: a malformed component-selection specification (neither
digits-only nor containing a dot, and whose slice evaluation fails with
`SyntaxError` or `TypeError`) makes `thorough` raise a `TypeError` naming the
value before the estimator is constructed; the command's catch-all handler
then logs it and the invocation completes with no analysis performed; and no
ratio-range check is performed at this boundary (an out-of-range cutoff such
as `1.5` is handed on unchecked). -/
theorem graph_selection_spec_behavior :
    ∀ (s : String) (ev : SliceEval) (minV maxV : Int),
      pyIsDigit s = false → pyContainsDot s = false →
      (ev = SliceEval.synErr ∨ ev = SliceEval.typeErr) → minV ≤ maxV →
        preConstruction VarGen.Heuristic minV maxV s ev
          = PrePhase.raisedExc (PyExc.typeError (s ++ " is invalid for --graph-selection!"))
        ∧ (∀ g, preConstruction VarGen.Heuristic minV maxV s ev ≠ PrePhase.constructed g)
        ∧ handleRunPhase
            (RunOutcome.raised (PyExc.typeError (s ++ " is invalid for --graph-selection!")))
          = CommandEnd.completedLogged
              (PyExc.typeError (s ++ " is invalid for --graph-selection!"))
        ∧ parseGraphComponentSelection "1.5" ev = ParseResult.ok (GCSValue.asRatioCut (3 / 2)) := by
  intro s ev minV maxV hdig hdot hev hle
  have hparse : parseGraphComponentSelection s ev
      = ParseResult.error (PyExc.typeError (s ++ " is invalid for --graph-selection!")) := by
    unfold parseGraphComponentSelection
    rw [if_neg (by simp [hdig]), if_neg (by simp [hdot])]
    rcases hev with h | h <;> subst h <;> rfl
  have hpre : preConstruction VarGen.Heuristic minV maxV s ev
      = PrePhase.raisedExc (PyExc.typeError (s ++ " is invalid for --graph-selection!")) := by
    unfold preConstruction
    rw [if_neg (by simp), if_neg (not_lt.mpr hle), hparse]
  refine ⟨hpre, ?_, rfl, parse_one_five ev⟩
  intro g h
  rw [hpre] at h
  exact PrePhase.noConfusion h

/-- C3 amended witness: concrete malformed input `"!"` with bounds 0 ≤ 1. -/
theorem graph_selection_spec_behavior_witness :
    preConstruction VarGen.Heuristic 0 1 "!" SliceEval.synErr
      = PrePhase.raisedExc (PyExc.typeError ("!" ++ " is invalid for --graph-selection!")) :=
  (graph_selection_spec_behavior "!" SliceEval.synErr 0 1 (by decide) (by decide)
    (Or.inl rfl) (by decide)).1

/-- C9 counterexample: the unparseable selection `"abc"` (a bare unbound
identifier, so `eval` raises `NameError`) does not produce the
`TypeError` naming the invalid value — the `NameError` propagates unchanged,
because the `except (SyntaxError, TypeError)` clause does not catch it. -/
theorem graph_selection_nameerror_not_typeerror :
    parseGraphComponentSelection "abc" SliceEval.nameErr
      = ParseResult.error (PyExc.nameError "abc")
    ∧ ParseResult.error (PyExc.nameError "abc")
        ≠ ParseResult.error (PyExc.typeError ("abc" ++ " is invalid for --graph-selection!")) := by
  refine ⟨by decide, by decide⟩

/-- C9 amended: the `--graph-selection` string is classified by shape:
digits-only is an integer rank index (in particular `"1"` selects by index,
not as the ratio cutoff 1), a string containing a dot is tried as a float
ratio cutoff with no numeric range check, and any other string is tried as
slice arguments, raising a `TypeError` naming the invalid value when that
fails with a `SyntaxError` or `TypeError`; other evaluation failures (such as
a `NameError`) propagate unchanged. -/
theorem graph_selection_parse_shape :
    ∀ (s : String) (ev : SliceEval) (q : ℚ),
      (pyIsDigit s = true →
        parseGraphComponentSelection s ev = ParseResult.ok (GCSValue.asIndex (pyInt s)))
      ∧ parseGraphComponentSelection "1" ev = ParseResult.ok (GCSValue.asIndex 1)
      ∧ (pyIsDigit s = false → pyContainsDot s = true → pyFloat s = some q →
          parseGraphComponentSelection s ev = ParseResult.ok (GCSValue.asRatioCut q))
      ∧ (pyIsDigit s = false → pyContainsDot s = false →
          (ev = SliceEval.synErr ∨ ev = SliceEval.typeErr) →
          parseGraphComponentSelection s ev
            = ParseResult.error (PyExc.typeError (s ++ " is invalid for --graph-selection!")))
      ∧ (pyIsDigit s = false → pyContainsDot s = false → ev = SliceEval.nameErr →
          parseGraphComponentSelection s ev = ParseResult.error (PyExc.nameError s))
      ∧ parseGraphComponentSelection "1.5" ev = ParseResult.ok (GCSValue.asRatioCut (3 / 2)) := by
  intro s ev q
  refine ⟨?_, ?_, ?_, ?_, ?_, parse_one_five ev⟩
  · intro h
    unfold parseGraphComponentSelection
    rw [if_pos h]
  · unfold parseGraphComponentSelection
    rw [if_pos (by decide)]
    have : pyInt "1" = 1 := by decide
    rw [this]
  · intro h1 h2 h3
    unfold parseGraphComponentSelection
    rw [if_neg (by simp [h1]), if_pos h2, h3]
  · intro h1 h2 hev
    unfold parseGraphComponentSelection
    rw [if_neg (by simp [h1]), if_neg (by simp [h2])]
    rcases hev with h | h <;> subst h <;> rfl
  · intro h1 h2 hev
    subst hev
    unfold parseGraphComponentSelection
    rw [if_neg (by simp [h1]), if_neg (by simp [h2])]

/-- C9 witness: concrete inputs exercising the index branch (`"7"`), the
converted-`TypeError` branch (`"xy"` with a `TypeError` from evaluation) and
the propagated-`NameError` branch (`"xy"` unbound). -/
theorem graph_selection_parse_shape_witness :
    parseGraphComponentSelection "7" SliceEval.synErr
      = ParseResult.ok (GCSValue.asIndex (pyInt "7"))
    ∧ parseGraphComponentSelection "xy" SliceEval.typeErr
      = ParseResult.error (PyExc.typeError ("xy" ++ " is invalid for --graph-selection!"))
    ∧ parseGraphComponentSelection "xy" SliceEval.nameErr
      = ParseResult.error (PyExc.nameError "xy") :=
  ⟨(graph_selection_parse_shape "7" SliceEval.synErr 0).1 (by decide),
   (graph_selection_parse_shape "xy" SliceEval.typeErr 0).2.2.2.1 (by decide) (by decide)
     (Or.inr rfl),
   (graph_selection_parse_shape "xy" SliceEval.nameErr 0).2.2.2.2.1 (by decide) (by decide) rfl⟩

/-- C10: with `max_valid_search < min_valid_search` an assertion failure is
raised before the estimator is constructed, whatever the other arguments; and
under the precondition `max_valid_search >= min_valid_search` that assertion's
failure branch (the `AssertionError` with empty message) is unreachable. -/
theorem max_min_search_assert_guard :
    ∀ (scheme : VarGen) (minV maxV : Int) (s : String) (ev : SliceEval),
      (maxV < minV →
        ∃ m, preConstruction scheme minV maxV s ev = PrePhase.raisedExc (PyExc.assertionError m))
      ∧ (maxV < minV → ∀ g, preConstruction scheme minV maxV s ev ≠ PrePhase.constructed g)
      ∧ (minV ≤ maxV →
          preConstruction scheme minV maxV s ev ≠ PrePhase.raisedExc (PyExc.assertionError "")) := by
  intro scheme minV maxV s ev
  refine ⟨?_, ?_, ?_⟩
  · intro hlt
    cases scheme with
    | Provided =>
        exact ⟨"User-provided is under developing, please use heuristic instead!",
          by rw [preConstruction, if_pos rfl]⟩
    | Heuristic =>
        exact ⟨"", by rw [preConstruction, if_neg (by simp), if_pos hlt]⟩
  · intro hlt g h
    cases scheme with
    | Provided =>
        rw [preConstruction, if_pos rfl] at h
        exact PrePhase.noConfusion h
    | Heuristic =>
        rw [preConstruction, if_neg (by simp), if_pos hlt] at h
        exact PrePhase.noConfusion h
  · intro hle h
    cases scheme with
    | Provided =>
        rw [preConstruction, if_pos rfl] at h
        simp at h
    | Heuristic =>
        rw [preConstruction, if_neg (by simp), if_neg (not_lt.mpr hle)] at h
        cases hp : parseGraphComponentSelection s ev with
        | ok g => rw [hp] at h; exact PrePhase.noConfusion h
        | error e =>
            rw [hp] at h
            cases h
            exact parse_gcs_not_assert s ev "" hp

/-- C10 witness: with `min_valid_search = 2 > 1 = max_valid_search` the
estimator is not constructed. -/
theorem max_min_search_assert_guard_witness :
    preConstruction VarGen.Heuristic 2 1 "0" SliceEval.synErr
      ≠ PrePhase.constructed (GCSValue.asIndex 0) :=
  (max_min_search_assert_guard VarGen.Heuristic 2 1 "0" SliceEval.synErr).2.1
    (by decide) (GCSValue.asIndex 0)

/-- A candidate path in canonical form (ordered signed contig traversal after
canonicalization for rotation/reflection), identified by its traversal
sequence. -/
abbrev CPath := List Int

/-- Result of path enumeration for one component: the collected distinct valid
paths, or `InsufficientPathsError` with its diagnostic counts (valid paths
found, attempts used). -/
inductive EnumResult
  | found (paths : List CPath)
  | insufficientPathsError (validCount attemptsUsed : Nat)
deriving DecidableEq, Repr

/-- Modelled from the spec: the enumeration loop of PathEnumerator (spec
section 4.2), whose code is not under `src/`.  `att i` is the outcome of the
`i`-th randomized walk attempt — `some p` a valid canonicalized path, `none`
an invalid walk.  The loop collects distinct valid paths, halting as soon as
`minValid` distinct paths are collected, or when the attempt budget runs out,
in which case it raises `InsufficientPathsError` if the minimum was not
reached. -/
def enumFrom (att : Nat → Option CPath) (minValid : Nat) :
    Nat → Nat → List CPath → EnumResult
  | 0, i, acc =>
      if minValid ≤ acc.length then .found acc
      else .insufficientPathsError acc.length i
  | budget + 1, i, acc =>
      if minValid ≤ acc.length then .found acc
      else
        match att i with
        | some p => enumFrom att minValid budget (i + 1) (if p ∈ acc then acc else acc ++ [p])
        | none => enumFrom att minValid budget (i + 1) acc

/-- Modelled from the spec: path enumeration for one component with the
`min_valid_search` / `max_valid_search` budget of the `thorough` options. -/
def enumeratePaths (att : Nat → Option CPath) (minValid maxAttempts : Nat) : EnumResult :=
  enumFrom att minValid maxAttempts 0 []

/-- Modelled from the spec: components are analyzed independently, so an
`InsufficientPathsError` in one component aborts only that component's
analysis and every component still gets a result. -/
def analyzeComponents (att : Nat → Nat → Option CPath) (minValid maxAttempts n : Nat) :
    List EnumResult :=
  (List.range n).map (fun c => enumeratePaths (att c) minValid maxAttempts)

/-- Invariant of the enumeration loop: starting from a duplicate-free
accumulator not yet at the minimum, a `found` result has exactly `minValid`
distinct paths, and an `insufficientPathsError` reports fewer than `minValid`
paths with the whole attempt budget used. -/
lemma enumFrom_inv (att : Nat → Option CPath) (minValid : Nat) :
    ∀ (budget i : Nat) (acc : List CPath), acc.Nodup → acc.length ≤ minValid →
      ((∀ ps, enumFrom att minValid budget i acc = EnumResult.found ps →
          ps.length = minValid ∧ ps.Nodup)
        ∧ (∀ v a, enumFrom att minValid budget i acc = EnumResult.insufficientPathsError v a →
            v < minValid ∧ a = i + budget)) := by
  intro budget
  induction budget with
  | zero =>
      intro i acc hnd hle
      constructor
      · intro ps hps
        by_cases h : minValid ≤ acc.length
        · rw [enumFrom, if_pos h] at hps
          cases hps
          exact ⟨le_antisymm hle h, hnd⟩
        · rw [enumFrom, if_neg h] at hps
          exact EnumResult.noConfusion hps
      · intro v a hva
        by_cases h : minValid ≤ acc.length
        · rw [enumFrom, if_pos h] at hva
          exact EnumResult.noConfusion hva
        · rw [enumFrom, if_neg h] at hva
          injection hva with h1 h2
          exact ⟨h1 ▸ lt_of_not_le h, by omega⟩
  | succ b ih =>
      intro i acc hnd hle
      by_cases h : minValid ≤ acc.length
      · constructor
        · intro ps hps
          rw [enumFrom, if_pos h] at hps
          cases hps
          exact ⟨le_antisymm hle h, hnd⟩
        · intro v a hva
          rw [enumFrom, if_pos h] at hva
          exact EnumResult.noConfusion hva
      · have hlt : acc.length < minValid := lt_of_not_le h
        have step :
            enumFrom att minValid (b + 1) i acc
              = match att i with
                | some p =>
                    enumFrom att minValid b (i + 1) (if p ∈ acc then acc else acc ++ [p])
                | none => enumFrom att minValid b (i + 1) acc := by
          rw [enumFrom, if_neg h]
        cases hatt : att i with
        | some p =>
            simp only [hatt] at step
            by_cases hp : p ∈ acc
            · rw [if_pos hp] at step
              have := ih (i + 1) acc hnd hle
              exact ⟨fun ps hps => this.1 ps (step ▸ hps),
                fun v a hva => by
                  have h2 := this.2 v a (step ▸ hva)
                  exact ⟨h2.1, by omega⟩⟩
            · rw [if_neg hp] at step
              have hnd2 : (acc ++ [p]).Nodup := by
                rw [List.nodup_append]
                exact ⟨hnd, List.nodup_singleton p,
                  fun x hx hxp => hp (by simpa using (List.mem_singleton.mp hxp ▸ hx))⟩
              have hle2 : (acc ++ [p]).length ≤ minValid := by
                simp only [List.length_append, List.length_singleton]
                omega
              have := ih (i + 1) (acc ++ [p]) hnd2 hle2
              exact ⟨fun ps hps => this.1 ps (step ▸ hps),
                fun v a hva => by
                  have h2 := this.2 v a (step ▸ hva)
                  exact ⟨h2.1, by omega⟩⟩
        | none =>
            simp only [hatt] at step
            have := ih (i + 1) acc hnd hle
            exact ⟨fun ps hps => this.1 ps (step ▸ hps),
              fun v a hva => by
                have h2 := this.2 v a (step ▸ hva)
                exact ⟨h2.1, by omega⟩⟩

/-- C5: enumeration halts either with exactly `min_valid_search` distinct
valid paths, or — when the `max_valid_search` attempt budget is exhausted
first — with `InsufficientPathsError` reporting fewer than the minimum and
the full budget of attempts used; it never returns fewer than the minimum
without that error, and an error in one component still leaves every
component with its own result. -/
theorem path_enumeration_budget_behavior :
    ∀ (att : Nat → Nat → Option CPath) (minValid maxAttempts n c : Nat),
      (∀ ps, enumeratePaths (att c) minValid maxAttempts = EnumResult.found ps →
        ps.length = minValid ∧ ps.Nodup)
      ∧ (∀ v a,
          enumeratePaths (att c) minValid maxAttempts = EnumResult.insufficientPathsError v a →
            v < minValid ∧ a = maxAttempts)
      ∧ (analyzeComponents att minValid maxAttempts n).length = n := by
  intro att minValid maxAttempts n c
  have h := enumFrom_inv (att c) minValid maxAttempts 0 [] List.nodup_nil (by simp)
  refine ⟨h.1, ?_, ?_⟩
  · intro v a hva
    have := h.2 v a hva
    exact ⟨this.1, by omega⟩
  · simp [analyzeComponents]

/-- C5 witness: an attempt stream yielding a fresh path each attempt reaches
the minimum of 2 distinct paths within a budget of 5. -/
theorem path_enumeration_budget_behavior_witness :
    ([[(0 : Int)], [(1 : Int)]] : List CPath).length = 2
    ∧ ([[(0 : Int)], [(1 : Int)]] : List CPath).Nodup :=
  (path_enumeration_budget_behavior (fun _ i => some [(i : Int)]) 2 5 3 0).1
    [[(0 : Int)], [(1 : Int)]] (by decide)

/-- Modelled from the spec: the least number of leading components whose
cumulative weight reaches the remaining target `t` (ComponentSelector's ratio
accumulation, spec section 4.1; the estimator code is not under `src/`).
Weights are taken already sorted in decreasing order. -/
def leastCoverLen : List ℚ → ℚ → Nat
  | [], _ => 0
  | w :: rest, t => if t ≤ 0 then 0 else leastCoverLen rest (t - w) + 1

/-- Modelled from the spec: ratio-based component selection — accumulate
weight from the top of the decreasing order until the running fraction of
total weight meets or exceeds the cutoff `r`, inclusive of the component that
crosses the threshold. -/
def ratioSelect (ws : List ℚ) (r : ℚ) : List ℚ :=
  ws.take (leastCoverLen ws (r * ws.sum))

/-- The accumulation never asks for more components than exist. -/
lemma leastCoverLen_le_length : ∀ (ws : List ℚ) (t : ℚ), leastCoverLen ws t ≤ ws.length := by
  intro ws
  induction ws with
  | nil => intro t; simp [leastCoverLen]
  | cons w rest ih =>
      intro t
      by_cases h : t ≤ 0
      · simp [leastCoverLen, h]
      · have := ih (t - w)
        simp only [leastCoverLen, if_neg h, List.length_cons]
        omega

/-- When the target is attainable, the selected prefix covers it. -/
lemma leastCoverLen_sum_ge : ∀ (ws : List ℚ) (t : ℚ), t ≤ ws.sum →
    t ≤ (ws.take (leastCoverLen ws t)).sum := by
  intro ws
  induction ws with
  | nil =>
      intro t ht
      simpa [leastCoverLen] using ht
  | cons w rest ih =>
      intro t ht
      by_cases h : t ≤ 0
      · simp [leastCoverLen, h]
      · rw [leastCoverLen, if_neg h, List.take_succ_cons, List.sum_cons]
        have ht2 : t - w ≤ rest.sum := by
          rw [List.sum_cons] at ht
          linarith
        have := ih (t - w) ht2
        linarith

/-- Every strictly shorter prefix falls short of the target. -/
lemma leastCoverLen_min : ∀ (ws : List ℚ) (t : ℚ) (j : Nat),
    j < leastCoverLen ws t → (ws.take j).sum < t := by
  intro ws
  induction ws with
  | nil =>
      intro t j hj
      simp [leastCoverLen] at hj
  | cons w rest ih =>
      intro t j hj
      by_cases h : t ≤ 0
      · simp [leastCoverLen, h] at hj
      · rw [leastCoverLen, if_neg h] at hj
        cases j with
        | zero =>
            simpa using lt_of_not_le h
        | succ j2 =>
            rw [List.take_succ_cons, List.sum_cons]
            have := ih (t - w) j2 (by omega)
            linarith

/-- C6: for weights sorted in decreasing order, all positive, and a cutoff
`r` in (0,1], ratio selection returns the minimal prefix whose cumulative
weight meets or exceeds the fraction `r` of the total weight (inclusive of
the crossing component); in particular for weights [10, 5, 1] and cutoff 0.7
it selects exactly the first two components. -/
theorem ratio_component_selection_minimal :
    ∀ (ws : List ℚ) (r : ℚ), List.Sorted (· ≥ ·) ws → (∀ w ∈ ws, 0 < w) →
      0 < r → r ≤ 1 →
      (r * ws.sum ≤ (ratioSelect ws r).sum)
      ∧ (∀ j, j < (ratioSelect ws r).length → (ws.take j).sum < r * ws.sum)
      ∧ ratioSelect [10, 5, 1] (7 / 10) = [10, 5] := by
  intro ws r hsort hpos hr0 hr1
  have hS : 0 ≤ ws.sum := List.sum_nonneg (fun w hw => (hpos w hw).le)
  have ht : r * ws.sum ≤ ws.sum := by
    calc r * ws.sum ≤ 1 * ws.sum := mul_le_mul_of_nonneg_right hr1 hS
    _ = ws.sum := one_mul _
  have hlen := leastCoverLen_le_length ws (r * ws.sum)
  refine ⟨leastCoverLen_sum_ge ws _ ht, ?_, ?_⟩
  · intro j hj
    apply leastCoverLen_min
    rw [ratioSelect, List.length_take] at hj
    omega
  · have hsum : ([10, 5, 1] : List ℚ).sum = 16 := by norm_num
    have htgt : (7 / 10 : ℚ) * 16 = 56 / 5 := by norm_num
    have hcov : leastCoverLen [10, 5, 1] (56 / 5) = 2 := by
      rw [leastCoverLen, if_neg (by norm_num), leastCoverLen, if_neg (by norm_num),
        leastCoverLen, if_pos (by norm_num)]
    rw [ratioSelect, hsum, htgt, hcov]
    rfl

/-- C6 witness: weights [10, 5, 1] with cutoff 0.7 select the first two
components (10/16 < 0.7 ≤ 15/16). -/
theorem ratio_component_selection_minimal_witness :
    ratioSelect [10, 5, 1] (7 / 10) = [10, 5] :=
  (ratio_component_selection_minimal [10, 5, 1] (7 / 10)
    (by norm_num [List.Sorted, List.sorted_cons])
    (by intro w hw; simp only [List.mem_cons, List.not_mem_nil, or_false] at hw
        rcases hw with h | h | h <;> norm_num [h])
    (by norm_num) (by norm_num)).2.2

/-- Modelled from the spec: per-worker random generators are "seeded
deterministically from the global seed plus a worker index" (spec
section 5). -/
def workerSeed (globalSeed w : Nat) : Nat := globalSeed + w

/-- Modelled from the spec and from the `-p`/`--processes` help text of
`__main__.py` ("Multiprocessing will lead to non-identical result with the
same random seed"): with a single worker, a run's result stream is a
deterministic function of the seed alone; with several workers, it also
depends on the completion order of the workers — the schedule `sched`, the
sequence of worker indices whose contributions arrive, which the host does
not control. -/
def estimatorRun (globalSeed numProcesses : Nat) (sched : List Nat) : List Nat :=
  if numProcesses ≤ 1 then [workerSeed globalSeed 0]
  else (sched.filter (· < numProcesses)).map (workerSeed globalSeed)

/-- C7 counterexample: two runs with the same seed 12345 and the same worker
count 2, differing only in worker completion order, produce different
results — so identical results are not guaranteed by same seed plus same
worker count alone. -/
theorem multiworker_same_seed_divergence :
    estimatorRun 12345 2 [0, 1] ≠ estimatorRun 12345 2 [1, 0] := by decide

/-- C7 amended: for every seed, any two single-worker runs with that seed
produce identical results regardless of scheduling, while with two workers
there are runs with the same seed and the same worker count whose results
already differ (multiprocessing forfeits bit-identical reproducibility, as
the code's own `-p` help text states). -/
theorem seed_reproducibility_single_worker :
    ∀ (seed : Nat),
      (∀ s1 s2, estimatorRun seed 1 s1 = estimatorRun seed 1 s2)
      ∧ (∃ s1 s2, estimatorRun seed 2 s1 ≠ estimatorRun seed 2 s2) := by
  intro seed
  constructor
  · intro s1 s2
    simp [estimatorRun]
  · refine ⟨[0, 1], [1, 0], ?_⟩
    intro h
    simp +decide [estimatorRun, workerSeed] at h

end Traversome
